import Mathlib

/-!
Shallow embedding of the Vial asynchronous task runtime
(`src/vial/core/task.hh`, `src/vial/core/scheduler.{hh,cc}`,
`src/vial/core/io/io_event_loop.{hh,cc}`, `src/vial/core/io/io_awaitables.hh`),
together with theorems settling the specification claims about it.

Pointers (`TaskBase*`, `IOAwaitable*`, callback `std::function`s) are embedded
as `Option Nat` identifiers (`none` = `nullptr`); the `std::unordered_set` /
`std::unordered_map` containers of the reactor are embedded as lists with
unique keys, with erase = filter on the key (extensionally faithful because an
`unordered_map` holds at most one entry per key).
-/

namespace Vial

/-- The enum `TaskState` from `task.hh`: `kAwaiting`, `kBlockedOnIO`, `kComplete`.
(`kBlockedOnIO` is spelled `kBlockedOnIo` here.) -/
inductive TaskState where
  | kAwaiting
  | kBlockedOnIo
  | kComplete
deriving DecidableEq, Repr

/-- The fields of `Task<T>::promise_type` that the scheduler and the claims
look at, for a result type `T` (`task.hh`, lines 85-135).  C++ default member
initializers: `state_ = kAwaiting`, all pointers `nullptr`, both flags
`false`, `T result_{}` (value-initialized). -/
structure Promise (T : Type) where
  state : TaskState
  awaiting : Option Nat
  ioAwaitable : Option Nat
  callback : Option Nat
  deleteOnCompletion : Bool
  enqueued : Bool
  result : T
deriving DecidableEq, Repr

/-- The promise as default-constructed by the coroutine machinery
(`task.hh` default member initializers). -/
def initPromise (T : Type) [Inhabited T] : Promise T :=
  { state := .kAwaiting
    awaiting := none
    ioAwaitable := none
    callback := none
    deleteOnCompletion := false
    enqueued := false
    result := default }

/-- The handler `promise_type::return_value(x)` (`task.hh`): stores the result and sets
`state_ = kComplete`. -/
def return_value {T : Type} (p : Promise T) (x : T) : Promise T :=
  { p with result := x, state := .kComplete }

/-- The handler `promise_type::unhandled_exception()` (`task.hh` line 102): the body is
empty, so the promise is not modified in any way. -/
def unhandled_exception {T : Type} (p : Promise T) : Promise T :=
  p

/-- One resumption of a task whose body raises an exception before reaching
`co_return`: `return_value` is never called; the coroutine machinery calls
`promise.unhandled_exception()` and proceeds to `final_suspend`
(which is `suspend_always`), leaving the promise as `unhandled_exception`
left it. -/
def resumeThrowingBody {T : Type} (p : Promise T) : Promise T :=
  unhandled_exception p

/-! ## Scheduler (`scheduler.hh`, `scheduler.cc`)

A task, as the scheduler sees it through the type-erased `TaskBase*`
interface, is a pointer identity `id` plus the promise fields it reads and
writes (`get_state`, `get_awaiting`, `get_io_awaitable`, `get_callback`,
`is_enqueued`, `should_delete_on_completion`). -/

/-- A task record: the identity of the task object plus the promise fields
the scheduler accesses through the `TaskBase` interface. -/
structure TaskRec where
  id : Nat
  st : TaskState
  awaiting : Option Nat
  ioAwaitable : Option Nat
  callback : Option Nat
  deleteOnCompletion : Bool
  enqueued : Bool
deriving DecidableEq, Repr

/-- The constant `kMaxLocalTasks = 256` (`scheduler.hh` line 11). -/
def kMaxLocalTasks : Nat := 256

/-- The scheduler's queues: `queues_` (one `std::queue<TaskBase*>` per
worker, front of the queue at the head of the list) and `global_queue_`.
`global_queue_` is a `Queue<TaskBase*>` from `queue.hh`; that file is not in
the sources, but per the spec it is a plain FIFO (`push` enqueues at the
tail), the same abstract behaviour as `std::queue`, so both kinds of queue
are embedded as lists of task ids with push = append at the tail. -/
structure SchedState where
  queues : List (List Nat)
  globalQueue : List Nat
deriving DecidableEq, Repr

/-- The queue-placement part of `Scheduler::push_task` (`scheduler.cc`
lines 15-22, faithfully including the direction of its comparison):

    if (queues_[worker_id].size() > kMaxLocalTasks) {
        queues_[worker_id].push(task);
    } else {
        global_queue_.push(task);
    }
-/
def pushTaskQueues (s : SchedState) (tid : Nat) (workerId : Nat) : SchedState :=
  if (s.queues.getD workerId []).length > kMaxLocalTasks then
    { s with queues := s.queues.set workerId ((s.queues.getD workerId []) ++ [tid]) }
  else
    { s with globalQueue := s.globalQueue ++ [tid] }

/-- The operation `Scheduler::push_task(task, worker_id)` (`scheduler.cc` lines 15-22):
`task->set_enqueued_true()` followed by the queue placement. -/
def pushTask (s : SchedState) (t : TaskRec) (workerId : Nat) :
    SchedState × TaskRec :=
  let t' := { t with enqueued := true }
  (pushTaskQueues s t'.id workerId, t')

/-- The operation `Scheduler::spawn_task(task)` (`scheduler.hh` lines 33-38):
`task.set_enqueued_true()` and `global_queue_.push(task.clone())`, returning
the task.  `Queue::push` comes from `queue.hh`, which is not in the sources;
per the spec (§4.1) it enqueues at the tail of a FIFO, embedded as append. -/
def spawn_task (s : SchedState) (t : TaskRec) : SchedState × TaskRec :=
  let t' := { t with enqueued := true }
  ({ s with globalQueue := s.globalQueue ++ [t'.id] }, t')

/-- Every task id residing in some scheduler queue (global or any local). -/
def allQueued (s : SchedState) : List Nat :=
  s.globalQueue ++ s.queues.flatten

/-! ## I/O reactor (`io_event_loop.hh`, `io_event_loop.cc`)

`registered_fds_` is an `std::unordered_set<int>`, the two callback maps are
`std::unordered_map<int, std::function<void()>>`; callbacks are embedded as
`Nat` identifiers.  The kernel epoll instance is embedded as the association
of each added fd with its armed event mask (`epoll_ctl(ADD)` on an fd that is
already present fails with `EEXIST`; on a fresh fd it succeeds). -/

/-- The flag `EPOLLIN` (linux): bit 0x001. -/
def EPOLLIN : Nat := 1

/-- The flag `EPOLLOUT` (linux): bit 0x004. -/
def EPOLLOUT : Nat := 4

/-- The flag `EPOLLET` (linux): bit 2^31; absent from a mask means level-triggered. -/
def EPOLLET : Nat := 2 ^ 31

/-- Lookup in an association list embedding an `unordered_map` /
the epoll interest list (at most one entry per key). -/
def alookup (fd : Int) : List (Int × Nat) → Option Nat
  | [] => none
  | (k, v) :: rest => if k = fd then some v else alookup fd rest

/-- Erase of a key from an association list with unique keys
(`unordered_map::erase` / `epoll_ctl(EPOLL_CTL_DEL)`). -/
def aerase (fd : Int) : List (Int × Nat) → List (Int × Nat)
  | [] => []
  | (k, v) :: rest => if k = fd then aerase fd rest else (k, v) :: aerase fd rest

/-- Erase of an element from a list embedding an `unordered_set`
(`unordered_set::erase`). -/
def serase (fd : Int) : List Int → List Int
  | [] => []
  | k :: rest => if k = fd then serase fd rest else k :: serase fd rest

/-- The state of `IOEventLoop`: `registered_fds_`, `read_callbacks_`,
`write_callbacks_`, and the kernel-side epoll interest list behind
`epoll_fd_`. -/
structure LoopState where
  registeredFds : List Int
  readCallbacks : List (Int × Nat)
  writeCallbacks : List (Int × Nat)
  epoll : List (Int × Nat)
deriving DecidableEq, Repr

/-- The operation `IOEventLoop::register_fd(fd)` (`io_event_loop.cc` lines 31-48):
if `fd` is already in `registered_fds_`, log and return; otherwise arm the
poller for `EPOLLIN | EPOLLOUT` (no `EPOLLET`, hence level-triggered); if
`epoll_ctl(ADD)` fails (the fd is already in the interest list), log and
return without inserting; otherwise insert `fd` into `registered_fds_`. -/
def register_fd (s : LoopState) (fd : Int) : LoopState :=
  if fd ∈ s.registeredFds then s
  else if (alookup fd s.epoll).isSome then s
  else { s with
          epoll := s.epoll ++ [(fd, EPOLLIN ||| EPOLLOUT)]
          registeredFds := s.registeredFds ++ [fd] }

/-- The operation `IOEventLoop::unregister_fd(fd)` (`io_event_loop.cc` lines 50-58):
if `fd` is not in `registered_fds_`, log and return; otherwise
`epoll_ctl(DEL)` and erase `fd` from `registered_fds_`.  The callback maps
are not touched. -/
def unregister_fd (s : LoopState) (fd : Int) : LoopState :=
  if fd ∈ s.registeredFds then
    { s with
        epoll := aerase fd s.epoll
        registeredFds := serase fd s.registeredFds }
  else s

/-- The operation `IOEventLoop::register_read_callback(fd, cb)` (`io_event_loop.cc`
lines 60-68): if `read_callbacks_` already contains `fd`, warn and return;
otherwise install `cb`. -/
def register_read_callback (s : LoopState) (fd : Int) (cb : Nat) : LoopState :=
  if (alookup fd s.readCallbacks).isSome then s
  else { s with readCallbacks := s.readCallbacks ++ [(fd, cb)] }

/-- The operation `IOEventLoop::register_write_callback(fd, cb)` (`io_event_loop.cc`
lines 70-78): symmetric to the read case. -/
def register_write_callback (s : LoopState) (fd : Int) (cb : Nat) : LoopState :=
  if (alookup fd s.writeCallbacks).isSome then s
  else { s with writeCallbacks := s.writeCallbacks ++ [(fd, cb)] }

/-- A callback invocation performed by `IOEventLoop::run` (`callback()`
after it was moved out of the map), recording the direction, the fd and the
callback that fired. -/
inductive Fired where
  | readFired (fd : Int) (cb : Nat)
  | writeFired (fd : Int) (cb : Nat)
deriving DecidableEq, Repr

/-- The "Handle read events" block of `IOEventLoop::run`
(`io_event_loop.cc` lines 105-113): if `EPOLLIN` is in the flags and
`read_callbacks_` contains `fd`, copy the callback out, erase the map entry,
and invoke the copy. -/
def handleRead (s : LoopState) (fd : Int) (flags : Nat) :
    LoopState × List Fired :=
  if flags &&& EPOLLIN ≠ 0 then
    match alookup fd s.readCallbacks with
    | some cb =>
        ({ s with readCallbacks := aerase fd s.readCallbacks },
         [Fired.readFired fd cb])
    | none => (s, [])
  else (s, [])

/-- The "Handle write events" block of `IOEventLoop::run`
(`io_event_loop.cc` lines 115-123), symmetric to the read block. -/
def handleWrite (s : LoopState) (fd : Int) (flags : Nat) :
    LoopState × List Fired :=
  if flags &&& EPOLLOUT ≠ 0 then
    match alookup fd s.writeCallbacks with
    | some cb =>
        ({ s with writeCallbacks := aerase fd s.writeCallbacks },
         [Fired.writeFired fd cb])
    | none => (s, [])
  else (s, [])

/-- The per-event body of `IOEventLoop::run` (`io_event_loop.cc`
lines 100-123): the read block, then the write block on the resulting
state.  The returned list records the callback invocations in order. -/
def handleEvent (s : LoopState) (fd : Int) (flags : Nat) :
    LoopState × List Fired :=
  let r := handleRead s fd flags
  let w := handleWrite r.1 fd flags
  (w.1, r.2 ++ w.2)

/-- One operation on the `IOEventLoop` state: the four public mutators plus
the handling of one delivered event inside `run`. -/
inductive LoopOp where
  | regFd (fd : Int)
  | unregFd (fd : Int)
  | regRead (fd : Int) (cb : Nat)
  | regWrite (fd : Int) (cb : Nat)
  | handleEv (fd : Int) (flags : Nat)
deriving DecidableEq, Repr

/-- Effect of one `LoopOp` on the loop state. -/
def applyLoopOp (s : LoopState) : LoopOp → LoopState
  | .regFd fd => register_fd s fd
  | .unregFd fd => unregister_fd s fd
  | .regRead fd cb => register_read_callback s fd cb
  | .regWrite fd cb => register_write_callback s fd cb
  | .handleEv fd flags => (handleEvent s fd flags).1

/-- A freshly constructed `IOEventLoop` (`io_event_loop.cc` lines 9-16):
empty registered set, empty callback maps, fresh empty epoll instance. -/
def loopInit : LoopState :=
  { registeredFds := [], readCallbacks := [], writeCallbacks := [], epoll := [] }

/-- The loop state after a sequence of operations on a fresh
`IOEventLoop`. -/
def loopRun (ops : List LoopOp) : LoopState :=
  ops.foldl applyLoopOp loopInit

/-! ## Worker loop (`Scheduler::run_worker`, `scheduler.cc` lines 42-107) -/

/-- The observable operations performed by one worker iteration on a
dequeued task whose state is not `kComplete` (`scheduler.cc` lines 57-71):
snapshotting `awaiting_`/`io_awaitable_` into locals and clearing both
promise slots, the `task->run()` resumption, and the destruction of the
snapshotted child / `IOAwaitable` afterwards. -/
inductive WorkerAct where
  | clearSlots
  | runResume
  | destroyChild (c : Nat)
  | destroyIo (a : Nat)
deriving DecidableEq, Repr

/-- Whether a `WorkerAct` destroys part of the prior suspension. -/
def WorkerAct.isDestroy : WorkerAct → Bool
  | .destroyChild _ => true
  | .destroyIo _ => true
  | _ => false

/-- The sequence of operations `Scheduler::run_worker` performs on a
dequeued task before dispatching on the new state (`scheduler.cc` lines
57-71).  When the dequeued state is `kComplete` the block is skipped.
`task_to_delete->destroy()` is guarded by a null check and
`delete` of a null pointer is a no-op, so a destroy action appears exactly
when the corresponding snapshot was non-null. -/
def workerIterTrace (t : TaskRec) : List WorkerAct :=
  if t.st ≠ .kComplete then
    [WorkerAct.clearSlots, WorkerAct.runResume]
      ++ (match t.awaiting with
          | some c => [WorkerAct.destroyChild c]
          | none => [])
      ++ (match t.ioAwaitable with
          | some a => [WorkerAct.destroyIo a]
          | none => [])
  else []

/-- The task as `task->run()` observes it after the worker snapshotted and
cleared both promise slots (`task->clear_awaiting(); task->clear_io_awaitable();`,
`scheduler.cc` lines 60-61). -/
def workerIterPreRun (t : TaskRec) : TaskRec :=
  { t with awaiting := none, ioAwaitable := none }

/-- What the `kComplete` dispatch arm did with the task
(`scheduler.cc` lines 93-104). -/
inductive CompleteAction where
  | pushedParent (p : Nat)
  | destroyedAndFreed
  | repushedSelf
deriving DecidableEq, Repr

/-- The dispatch arm `case kComplete` of the dispatch (`scheduler.cc` lines 93-104):

    if (task->get_callback() != nullptr)      push_task(task->get_callback(), worker_id);
    else if (task->should_delete_on_completion()) { task->destroy(); delete task; }
    else                                      push_task(task, worker_id);
-/
def completeDispatch (s : SchedState) (t : TaskRec) (workerId : Nat) :
    SchedState × CompleteAction :=
  match t.callback with
  | some p => (pushTaskQueues s p workerId, .pushedParent p)
  | none =>
      if t.deleteOnCompletion then (s, .destroyedAndFreed)
      else (pushTaskQueues s t.id workerId, .repushedSelf)

/-- The dispatch arm `case kAwaiting` of the dispatch (`scheduler.cc` lines 74-82):
`awaiting->set_callback(task)`, then `push_task(awaiting, worker_id)` only
if `!awaiting->is_enqueued()`.  `parentId` is the dispatching task, `child`
the awaited task found in `task->get_awaiting()`. -/
def awaitingDispatch (s : SchedState) (parentId : Nat) (child : TaskRec)
    (workerId : Nat) : SchedState × TaskRec :=
  let child1 := { child with callback := some parentId }
  if child1.enqueued then (s, child1)
  else pushTask s child1 workerId

/-- The task-mutating calls the scheduler, its worker loop and the reactor
callback perform on a task, collected from the sources:
`set_enqueued_true` (`push_task`, `spawn_task`), `clear_awaiting` and
`clear_io_awaitable` (`run_worker`), `set_callback` (`kAwaiting` arm),
`set_state` (the reactor callback in the `kBlockedOnIO` arm), and the
state/result stores the resumed body itself performs (`return_value`,
`unhandled_exception`, `WaitForRead/WaitForWrite::await_suspend`,
`Task::await_suspend`).  `set_enqueued_false` has no caller anywhere in the
sources; so no operation resetting the flag appears here. -/
inductive SchedOp where
  | setEnqueuedTrue
  | clearAwaiting
  | clearIoAwaitable
  | setCallback (c : Option Nat)
  | setState (st : TaskState)
  | returnValueOp
  | unhandledExceptionOp
  | suspendOnIo (a : Nat)
  | awaitChildOp (c : Nat)
deriving DecidableEq, Repr

/-- Effect of one `SchedOp` on a task record. -/
def applyOp (t : TaskRec) : SchedOp → TaskRec
  | .setEnqueuedTrue => { t with enqueued := true }
  | .clearAwaiting => { t with awaiting := none }
  | .clearIoAwaitable => { t with ioAwaitable := none }
  | .setCallback c => { t with callback := c }
  | .setState st => { t with st := st }
  | .returnValueOp => { t with st := .kComplete }
  | .unhandledExceptionOp => t
  | .suspendOnIo a => { t with st := .kBlockedOnIo, ioAwaitable := some a }
  | .awaitChildOp c => { t with awaiting := some c }

/-- A sequence of scheduler/worker/reactor operations applied in order. -/
def applyOps (t : TaskRec) (ops : List SchedOp) : TaskRec :=
  ops.foldl applyOp t

/-! ## Task lifecycle transition system

The runtime's steps on one task, as performed by `Scheduler::run_worker`,
the `WaitForRead`/`WaitForWrite` awaitables and the reactor callback
installed in the `kBlockedOnIO` dispatch arm.  Each snapshot keeps the
fields the `io_waiter ⇔ BLOCKED_ON_IO` claim is about: where the task
currently resides, its `state_`, and its `io_awaitable_` slot. -/

/-- Where a task currently resides: being resumed by a worker, sitting in a
scheduler queue, held by the reactor (callback pending), or held in its
child's `callback_` slot while suspended on an await. -/
inductive TLoc where
  | running
  | queued
  | blockedReactor
  | parentSlot
deriving DecidableEq, Repr

/-- A task's observable snapshot for the lifecycle transition system. -/
structure TaskSnap where
  loc : TLoc
  st : TaskState
  io : Option Nat
deriving DecidableEq, Repr

/-- A freshly spawned task: pushed to the global queue with
`state_ = kAwaiting` and a null `io_awaitable_`
(`Scheduler::spawn_task`, `scheduler.hh` lines 33-38). -/
def taskInit : TaskSnap :=
  { loc := .queued, st := .kAwaiting, io := none }

/-- One runtime step on a task, from the sources:
* `dequeueResume`: a worker pops the task and, the state not being
  `kComplete`, snapshots and clears the promise slots before `run()`
  (`scheduler.cc` lines 46-61);
* `suspendIo`: during `run()` the body hits `co_await WaitForRead/WaitForWrite`,
  whose `await_suspend` sets `state_ = kBlockedOnIO` and stores the cloned
  awaitable (`io_awaitables.hh` lines 42-46 and 77-81), after which the
  `kBlockedOnIO` dispatch arm hands the task to the reactor
  (`scheduler.cc` lines 84-91);
* `awaitChild`: during `run()` the body awaits another task; the task ends
  up recorded as that child's callback (`scheduler.cc` lines 74-82);
* `bodyComplete`: the body runs to `co_return`; with no parent recorded and
  not detached, the `kComplete` arm re-pushes the task
  (`scheduler.cc` lines 93-104);
* `fireCallback`: the reactor invokes the registered callback, which runs
  `task->set_state(kAwaiting); push_task(task->clone(), worker_id);`
  (`scheduler.cc` lines 86-90) — `io_awaitable_` is left untouched;
* `parentWake`: the task's awaited child completed and the `kComplete` arm
  pushed the task (`scheduler.cc` lines 94-96);
* `completeRedispatch`: a worker pops a task already `kComplete`, skips the
  run block, and the `kComplete` arm re-pushes it
  (`scheduler.cc` lines 57, 93-104). -/
inductive TStep : TaskSnap → TaskSnap → Prop where
  | dequeueResume (s : TaskSnap) (h1 : s.loc = .queued)
      (h2 : s.st ≠ .kComplete) :
      TStep s { loc := .running, st := s.st, io := none }
  | suspendIo (s : TaskSnap) (a : Nat) (h : s.loc = .running) :
      TStep s { loc := .blockedReactor, st := .kBlockedOnIo, io := some a }
  | awaitChild (s : TaskSnap) (h : s.loc = .running) :
      TStep s { loc := .parentSlot, st := s.st, io := s.io }
  | bodyComplete (s : TaskSnap) (h : s.loc = .running) :
      TStep s { loc := .queued, st := .kComplete, io := s.io }
  | fireCallback (s : TaskSnap) (h : s.loc = .blockedReactor) :
      TStep s { loc := .queued, st := .kAwaiting, io := s.io }
  | parentWake (s : TaskSnap) (h : s.loc = .parentSlot) :
      TStep s { loc := .queued, st := s.st, io := s.io }
  | completeRedispatch (s : TaskSnap) (h1 : s.loc = .queued)
      (h2 : s.st = .kComplete) :
      TStep s s

/-- The task states reachable from a fresh spawn under the runtime's
steps. -/
def ReachableTask (s : TaskSnap) : Prop :=
  Relation.ReflTransGen TStep taskInit s

/-- Number of occurrences of one invocation record in an invocation list. -/
def countFired (c : Fired) : List Fired → Nat
  | [] => 0
  | x :: rest => (if x = c then 1 else 0) + countFired c rest

/-! ### Concrete sample values (used to evaluate the embedding) -/

/-- A task suspended with both prior-suspension slots occupied. -/
def sampleTask : TaskRec :=
  { id := 1, st := .kAwaiting, awaiting := some 3, ioAwaitable := some 4
    callback := none, deleteOnCompletion := false, enqueued := true }

/-- A freshly created task, not yet enqueued. -/
def sampleNewTask : TaskRec :=
  { id := 42, st := .kAwaiting, awaiting := none, ioAwaitable := none
    callback := none, deleteOnCompletion := false, enqueued := false }

/-- A completed task with a recorded parent callback. -/
def sampleDoneTask : TaskRec :=
  { id := 2, st := .kComplete, awaiting := none, ioAwaitable := none
    callback := some 9, deleteOnCompletion := false, enqueued := true }

/-- A one-worker scheduler with an empty local queue and an empty global
queue. -/
def sampleSched : SchedState :=
  { queues := [[]], globalQueue := [] }

/-- A reactor state with fds 3 and 4 registered, a read callback pending on
fd 3 and a write callback pending on fd 4. -/
def sampleLoop : LoopState :=
  { registeredFds := [3, 4]
    readCallbacks := [(3, 7)]
    writeCallbacks := [(4, 8)]
    epoll := [(3, EPOLLIN ||| EPOLLOUT), (4, EPOLLIN ||| EPOLLOUT)] }

/-! ## Helper lemmas -/

theorem alookup_append (fd : Int) (l1 l2 : List (Int × Nat)) :
    alookup fd (l1 ++ l2)
      = match alookup fd l1 with
        | some v => some v
        | none => alookup fd l2 := by
  induction l1 with
  | nil => simp [alookup]
  | cons hd tl ih =>
      obtain ⟨k, v⟩ := hd
      by_cases hk : k = fd <;> simp [alookup, hk, ih]

theorem alookup_aerase_self (fd : Int) (l : List (Int × Nat)) :
    alookup fd (aerase fd l) = none := by
  induction l with
  | nil => simp [aerase, alookup]
  | cons hd tl ih =>
      obtain ⟨k, v⟩ := hd
      by_cases hk : k = fd <;> simp [aerase, alookup, hk, ih]

theorem alookup_aerase_ne (fd g : Int) (l : List (Int × Nat)) (h : g ≠ fd) :
    alookup g (aerase fd l) = alookup g l := by
  induction l with
  | nil => simp [aerase]
  | cons hd tl ih =>
      obtain ⟨k, v⟩ := hd
      by_cases hk : k = fd
      · have hkg : k ≠ g := fun e => h (e.symm.trans hk)
        simp only [aerase, if_pos hk, alookup, if_neg hkg]
        exact ih
      · simp only [aerase, if_neg hk, alookup, ih]

theorem not_mem_serase_self (fd : Int) (l : List Int) :
    fd ∉ serase fd l := by
  induction l with
  | nil => simp [serase]
  | cons hd tl ih =>
      by_cases hk : hd = fd
      · simpa [serase, hk] using ih
      · simp only [serase, if_neg hk, List.mem_cons]
        rintro (h1 | h2)
        · exact hk h1.symm
        · exact ih h2

theorem mem_serase_ne (fd g : Int) (l : List Int) (h : g ≠ fd) :
    g ∈ serase fd l ↔ g ∈ l := by
  induction l with
  | nil => simp [serase]
  | cons hd tl ih =>
      by_cases hk : hd = fd
      · simp [serase, hk, ih, h]
      · simp only [serase, if_neg hk, List.mem_cons, ih]

theorem handleRead_other_fields (s : LoopState) (fd : Int) (flags : Nat) :
    (handleRead s fd flags).1.registeredFds = s.registeredFds ∧
    (handleRead s fd flags).1.epoll = s.epoll ∧
    (handleRead s fd flags).1.writeCallbacks = s.writeCallbacks := by
  unfold handleRead
  split
  · split <;> simp
  · simp

theorem handleWrite_other_fields (s : LoopState) (fd : Int) (flags : Nat) :
    (handleWrite s fd flags).1.registeredFds = s.registeredFds ∧
    (handleWrite s fd flags).1.epoll = s.epoll ∧
    (handleWrite s fd flags).1.readCallbacks = s.readCallbacks := by
  unfold handleWrite
  split
  · split <;> simp
  · simp

/-- Invariant of the reactor state: an fd is in `registered_fds_` exactly
when it is in the epoll interest list (`register_fd` inserts into
`registered_fds_` exactly when the `epoll_ctl(ADD)` succeeded, and
`unregister_fd` removes both). -/
def RegEpollAgree (s : LoopState) : Prop :=
  ∀ fd : Int, fd ∈ s.registeredFds ↔ (alookup fd s.epoll).isSome = true

theorem regEpollAgree_init : RegEpollAgree loopInit := by
  intro fd
  simp [loopInit, alookup]

theorem regEpollAgree_step (s : LoopState) (op : LoopOp)
    (h : RegEpollAgree s) : RegEpollAgree (applyLoopOp s op) := by
  cases op with
  | regFd fd =>
      intro g
      show g ∈ (register_fd s fd).registeredFds
          ↔ (alookup g (register_fd s fd).epoll).isSome = true
      unfold register_fd
      by_cases h1 : fd ∈ s.registeredFds
      · rw [if_pos h1]; exact h g
      · rw [if_neg h1]
        by_cases h2 : (alookup fd s.epoll).isSome = true
        · rw [if_pos h2]; exact h g
        · rw [if_neg h2]
          show g ∈ s.registeredFds ++ [fd] ↔ _
          rw [List.mem_append, alookup_append]
          cases halo : alookup g s.epoll with
          | some v =>
              have hg : g ∈ s.registeredFds := (h g).mpr (by rw [halo]; rfl)
              simp [hg]
          | none =>
              have hg : g ∉ s.registeredFds := fun hm => by
                have hx := (h g).mp hm
                rw [halo] at hx
                exact absurd hx (by simp)
              by_cases hfg : fd = g
              · simp [alookup, hfg, hg]
              · have hgf : ¬g = fd := fun e => hfg e.symm
                simp [alookup, hfg, hg, hgf]
  | unregFd fd =>
      intro g
      show g ∈ (unregister_fd s fd).registeredFds
          ↔ (alookup g (unregister_fd s fd).epoll).isSome = true
      unfold unregister_fd
      by_cases h1 : fd ∈ s.registeredFds
      · rw [if_pos h1]
        by_cases hg : g = fd
        · subst hg
          simp [not_mem_serase_self, alookup_aerase_self]
        · show g ∈ serase fd s.registeredFds ↔ _
          rw [mem_serase_ne fd g _ hg, alookup_aerase_ne fd g _ hg]
          exact h g
      · rw [if_neg h1]; exact h g
  | regRead fd cb =>
      intro g
      show g ∈ (register_read_callback s fd cb).registeredFds
          ↔ (alookup g (register_read_callback s fd cb).epoll).isSome = true
      unfold register_read_callback
      split
      · exact h g
      · exact h g
  | regWrite fd cb =>
      intro g
      show g ∈ (register_write_callback s fd cb).registeredFds
          ↔ (alookup g (register_write_callback s fd cb).epoll).isSome = true
      unfold register_write_callback
      split
      · exact h g
      · exact h g
  | handleEv fd flags =>
      intro g
      have hr := handleRead_other_fields s fd flags
      have hw := handleWrite_other_fields (handleRead s fd flags).1 fd flags
      show g ∈ (handleWrite (handleRead s fd flags).1 fd flags).1.registeredFds
          ↔ (alookup g
              (handleWrite (handleRead s fd flags).1 fd flags).1.epoll).isSome
              = true
      rw [hw.1, hr.1, hw.2.1, hr.2.1]
      exact h g

theorem regEpollAgree_run (ops : List LoopOp) : RegEpollAgree (loopRun ops) := by
  suffices hstep : ∀ s, RegEpollAgree s → RegEpollAgree (ops.foldl applyLoopOp s) by
    exact hstep loopInit regEpollAgree_init
  induction ops with
  | nil => exact fun s hs => hs
  | cons op rest ih => exact fun s hs => ih _ (regEpollAgree_step s op hs)

theorem countFired_append (c : Fired) (l1 l2 : List Fired) :
    countFired c (l1 ++ l2) = countFired c l1 + countFired c l2 := by
  induction l1 with
  | nil => simp [countFired]
  | cons x rest ih => simp [countFired, ih]; omega

theorem mem_allQueued_pushTaskQueues (s : SchedState) (tid i : Nat)
    (h : i < s.queues.length) :
    tid ∈ allQueued (pushTaskQueues s tid i) := by
  unfold pushTaskQueues allQueued
  split
  · have hlen : i < (s.queues.set i ((s.queues.getD i []) ++ [tid])).length := by
      simpa using h
    have hmem0 := List.getElem_mem hlen
    rw [List.getElem_set_self hlen] at hmem0
    refine List.mem_append.mpr (Or.inr ?_)
    exact List.mem_flatten.mpr ⟨(s.queues.getD i []) ++ [tid], hmem0, by simp⟩
  · exact List.mem_append.mpr (Or.inl (by simp))

theorem handleRead_fires (s : LoopState) (fd : Int) (flags : Nat) (cb : Nat)
    (h1 : flags &&& EPOLLIN ≠ 0) (h2 : alookup fd s.readCallbacks = some cb) :
    handleRead s fd flags
      = ({ s with readCallbacks := aerase fd s.readCallbacks },
         [Fired.readFired fd cb]) := by
  unfold handleRead
  rw [if_pos h1, h2]

theorem handleWrite_fires (s : LoopState) (fd : Int) (flags : Nat) (cb : Nat)
    (h1 : flags &&& EPOLLOUT ≠ 0) (h2 : alookup fd s.writeCallbacks = some cb) :
    handleWrite s fd flags
      = ({ s with writeCallbacks := aerase fd s.writeCallbacks },
         [Fired.writeFired fd cb]) := by
  unfold handleWrite
  rw [if_pos h1, h2]

theorem countFired_handleWrite_read (s : LoopState) (fd g : Int)
    (flags : Nat) (k : Nat) :
    countFired (Fired.readFired g k) (handleWrite s fd flags).2 = 0 := by
  unfold handleWrite
  split
  · split <;> simp [countFired]
  · simp [countFired]

theorem countFired_handleRead_write (s : LoopState) (fd g : Int)
    (flags : Nat) (k : Nat) :
    countFired (Fired.writeFired g k) (handleRead s fd flags).2 = 0 := by
  unfold handleRead
  split
  · split <;> simp [countFired]
  · simp [countFired]

/-! ## Claims -/

/-- C1: `Scheduler::push_task(t, i)` is claimed to place `t` in worker i's
local queue while that queue is below `kMaxLocalTasks` (256) and to overflow
to the global queue otherwise.  The code's comparison is inverted
(`size() > kMaxLocalTasks` selects the LOCAL queue), so whenever the local
queue is at or below the cap — in particular when it is empty — the task
goes to the global queue and the local queue is left untouched; evaluated
here both in general and at the failing input (empty local queue of worker
0, far below the cap). -/
theorem push_task_overflow_inverted :
    (∀ (s : SchedState) (t : TaskRec) (i : Nat),
        (s.queues.getD i []).length ≤ kMaxLocalTasks →
        (pushTask s t i).1.globalQueue = s.globalQueue ++ [t.id] ∧
        (pushTask s t i).1.queues = s.queues) ∧
    (sampleSched.queues.getD 0 []).length < kMaxLocalTasks ∧
    (pushTask sampleSched sampleNewTask 0).1
      = { queues := [[]], globalQueue := [42] } := by
  refine ⟨?_, by decide, by decide⟩
  intro s t i h
  have hno : ¬(kMaxLocalTasks < (s.queues[i]?.getD []).length) :=
    Nat.not_lt.mpr (by simpa [List.getD] using h)
  simp [pushTask, pushTaskQueues, if_neg hno]

/-- C1 witness: the general statement evaluated at worker 0 of the sample
scheduler, whose local queue is empty. -/
theorem push_task_overflow_inverted_witness :
    (pushTask sampleSched sampleNewTask 0).1.globalQueue
        = sampleSched.globalQueue ++ [sampleNewTask.id] ∧
    (pushTask sampleSched sampleNewTask 0).1.queues = sampleSched.queues :=
  push_task_overflow_inverted.1 sampleSched sampleNewTask 0 (by decide)

/-- C2 counterexample: fd 3 is registered in `sampleLoop` and has a pending
read callback; after `unregister_fd(3)` the read callback for fd 3 is still
in `read_callbacks_`, so pending callbacks are NOT dropped as claimed. -/
theorem unregister_fd_pending_callback_cex :
    (3 : Int) ∈ sampleLoop.registeredFds ∧
    alookup 3 (unregister_fd sampleLoop 3).readCallbacks = some 7 := by
  decide

/-- C2 (amended): `unregister_fd(fd)` on a registered fd removes `fd` from
the poller and from `registered_fds_`, but leaves both callback maps
entirely unchanged (pending callbacks for `fd` are not dropped). -/
theorem unregister_fd_removes_only_fd (s : LoopState) (fd : Int)
    (h : fd ∈ s.registeredFds) :
    fd ∉ (unregister_fd s fd).registeredFds ∧
    alookup fd (unregister_fd s fd).epoll = none ∧
    (unregister_fd s fd).readCallbacks = s.readCallbacks ∧
    (unregister_fd s fd).writeCallbacks = s.writeCallbacks := by
  unfold unregister_fd
  rw [if_pos h]
  exact ⟨not_mem_serase_self fd _, alookup_aerase_self fd _, rfl, rfl⟩

/-- C2 witness: the amended statement evaluated at `sampleLoop` and fd 3. -/
theorem unregister_fd_removes_only_fd_witness :
    (3 : Int) ∉ (unregister_fd sampleLoop 3).registeredFds ∧
    alookup 3 (unregister_fd sampleLoop 3).epoll = none ∧
    (unregister_fd sampleLoop 3).readCallbacks = sampleLoop.readCallbacks ∧
    (unregister_fd sampleLoop 3).writeCallbacks = sampleLoop.writeCallbacks :=
  unregister_fd_removes_only_fd sampleLoop 3 (by decide)

/-- C3 counterexample: a task body that throws on its first resumption goes
through `unhandled_exception` (an empty body), so `state_` stays at its
initial `kAwaiting` value — the promise does NOT end at `kComplete` as
claimed. -/
theorem task_exception_leaves_state_cex :
    (resumeThrowingBody (initPromise Nat)).state = TaskState.kAwaiting ∧
    TaskState.kAwaiting ≠ TaskState.kComplete := by
  decide

/-- C3 (amended): a task-body exception is swallowed
(`unhandled_exception` neither rethrows nor records anything: it is the
identity on the promise), so after a throwing first resumption `state_`
still holds `kAwaiting` — not `kComplete` — and the result slot still holds
its default-constructed value. -/
theorem unhandled_exception_is_noop (T : Type) [Inhabited T]
    (p : Promise T) :
    unhandled_exception p = p ∧
    (resumeThrowingBody (initPromise T)).state = TaskState.kAwaiting ∧
    (resumeThrowingBody (initPromise T)).result = (default : T) ∧
    (resumeThrowingBody (initPromise T)).state ≠ TaskState.kComplete :=
  ⟨rfl, rfl, rfl, fun h => TaskState.noConfusion h⟩

/-- C3 witness: the amended statement evaluated at `T = Nat` and the
default-constructed promise. -/
theorem unhandled_exception_is_noop_witness :
    unhandled_exception (initPromise Nat) = initPromise Nat ∧
    (resumeThrowingBody (initPromise Nat)).state = TaskState.kAwaiting ∧
    (resumeThrowingBody (initPromise Nat)).result = (default : Nat) ∧
    (resumeThrowingBody (initPromise Nat)).state ≠ TaskState.kComplete :=
  unhandled_exception_is_noop Nat (initPromise Nat)

/-- C4 counterexample: the state reached by spawn → dequeue/resume →
suspend-on-IO → reactor callback is reachable and has `state_ = kAwaiting`
while `io_awaitable_` is still non-null (the callback only runs
`set_state(kAwaiting)` and re-pushes a clone; the slot is cleared only at
the NEXT worker dequeue), refuting the claimed equivalence. -/
theorem io_slot_iff_state_cex :
    ReachableTask
      { loc := TLoc.queued, st := TaskState.kAwaiting, io := some 5 } ∧
    ({ loc := TLoc.queued, st := TaskState.kAwaiting, io := some 5 }
        : TaskSnap).io ≠ none ∧
    ({ loc := TLoc.queued, st := TaskState.kAwaiting, io := some 5 }
        : TaskSnap).st ≠ TaskState.kBlockedOnIo := by
  refine ⟨?_, by decide, by decide⟩
  have h1 : TStep taskInit
      ({ loc := .running, st := .kAwaiting, io := none } : TaskSnap) :=
    TStep.dequeueResume taskInit rfl (by decide)
  have h2 : TStep ({ loc := .running, st := .kAwaiting, io := none } : TaskSnap)
      ({ loc := .blockedReactor, st := .kBlockedOnIo, io := some 5 } : TaskSnap) :=
    TStep.suspendIo _ 5 rfl
  have h3 : TStep
      ({ loc := .blockedReactor, st := .kBlockedOnIo, io := some 5 } : TaskSnap)
      ({ loc := .queued, st := .kAwaiting, io := some 5 } : TaskSnap) :=
    TStep.fireCallback _ rfl
  exact Relation.ReflTransGen.head h1
    (Relation.ReflTransGen.head h2 (Relation.ReflTransGen.single h3))

/-- C4 (amended): only one direction of the claimed equivalence holds on
reachable task states: whenever `state_ = kBlockedOnIO` the `io_awaitable_`
slot is non-null (and the task is held by the reactor).  The converse fails
after the reactor callback fires, when the slot stays non-null while
`state_` is already `kAwaiting`, until the next worker dequeue clears it. -/
theorem reachable_blocked_implies_io_slot (s : TaskSnap)
    (h : ReachableTask s) (hst : s.st = TaskState.kBlockedOnIo) :
    s.io.isSome = true ∧ s.loc = TLoc.blockedReactor := by
  suffices hinv : s.st = TaskState.kBlockedOnIo →
      s.loc = TLoc.blockedReactor ∧ s.io.isSome = true by
    exact ⟨(hinv hst).2, (hinv hst).1⟩
  clear hst
  induction h with
  | refl => intro hst; exact absurd hst (by decide)
  | tail hreach hstep ih =>
      cases hstep with
      | dequeueResume h1 h2 =>
          intro hst
          have hb := ih hst
          rw [h1] at hb
          exact absurd hb.1 (by decide)
      | suspendIo a hb =>
          intro _hst
          exact ⟨rfl, rfl⟩
      | awaitChild hb =>
          intro hst
          have hB := ih hst
          rw [hb] at hB
          exact absurd hB.1 (by decide)
      | bodyComplete hb =>
          intro hst
          exact TaskState.noConfusion hst
      | fireCallback hb =>
          intro hst
          exact TaskState.noConfusion hst
      | parentWake hb =>
          intro hst
          have hB := ih hst
          rw [hb] at hB
          exact absurd hB.1 (by decide)
      | completeRedispatch h1 h2 =>
          intro hst
          exact ih hst

/-- C4 witness: the amended statement evaluated at the reachable
blocked-on-IO state produced by spawn → dequeue/resume → suspend-on-IO. -/
theorem reachable_blocked_implies_io_slot_witness :
    ({ loc := TLoc.blockedReactor, st := TaskState.kBlockedOnIo, io := some 5 }
        : TaskSnap).io.isSome = true ∧
    ({ loc := TLoc.blockedReactor, st := TaskState.kBlockedOnIo, io := some 5 }
        : TaskSnap).loc = TLoc.blockedReactor :=
  reachable_blocked_implies_io_slot _
    (Relation.ReflTransGen.head
      (TStep.dequeueResume taskInit rfl (by decide))
      (Relation.ReflTransGen.single
        (TStep.suspendIo
          ({ loc := .running, st := .kAwaiting, io := none } : TaskSnap)
          5 rfl)))
    rfl

/-- C5: `register_fd` is idempotent — a second call with the same fd is a
no-op on the whole reactor state — and on any reachable reactor state the
first registration of an fd arms the poller for both `EPOLLIN` and
`EPOLLOUT`, with `EPOLLET` absent from the mask (level-triggered), and
records the fd in `registered_fds_`. -/
theorem register_fd_idempotent_level_triggered :
    (∀ (s : LoopState) (fd : Int),
        register_fd (register_fd s fd) fd = register_fd s fd) ∧
    (∀ (ops : List LoopOp) (fd : Int),
        fd ∉ (loopRun ops).registeredFds →
        alookup fd (register_fd (loopRun ops) fd).epoll
            = some (EPOLLIN ||| EPOLLOUT) ∧
        fd ∈ (register_fd (loopRun ops) fd).registeredFds ∧
        (EPOLLIN ||| EPOLLOUT) &&& EPOLLET = 0) := by
  have hfix : ∀ (s : LoopState) (fd : Int), fd ∈ s.registeredFds →
      register_fd s fd = s := by
    intro s fd h
    unfold register_fd
    rw [if_pos h]
  constructor
  · intro s fd
    by_cases h1 : fd ∈ s.registeredFds
    · rw [hfix s fd h1]
      exact hfix s fd h1
    · by_cases h2 : (alookup fd s.epoll).isSome = true
      · have heq : register_fd s fd = s := by
          unfold register_fd
          rw [if_neg h1, if_pos h2]
        rw [heq]
        exact heq
      · have heq : register_fd s fd
            = { s with
                  epoll := s.epoll ++ [(fd, EPOLLIN ||| EPOLLOUT)]
                  registeredFds := s.registeredFds ++ [fd] } := by
          unfold register_fd
          rw [if_neg h1, if_neg h2]
        rw [heq]
        exact hfix _ fd (by simp)
  · intro ops fd h
    have hagree := regEpollAgree_run ops fd
    have hepoll : alookup fd (loopRun ops).epoll = none := by
      cases he : alookup fd (loopRun ops).epoll with
      | none => rfl
      | some v => exact absurd (hagree.mpr (by rw [he]; rfl)) h
    have h2 : ¬(alookup fd (loopRun ops).epoll).isSome = true := by
      rw [hepoll]
      simp
    have heq : register_fd (loopRun ops) fd
        = { loopRun ops with
              epoll := (loopRun ops).epoll ++ [(fd, EPOLLIN ||| EPOLLOUT)]
              registeredFds := (loopRun ops).registeredFds ++ [fd] } := by
      unfold register_fd
      rw [if_neg h, if_neg h2]
    rw [heq]
    refine ⟨?_, by simp, by decide⟩
    show alookup fd ((loopRun ops).epoll ++ [(fd, EPOLLIN ||| EPOLLOUT)])
        = some (EPOLLIN ||| EPOLLOUT)
    rw [alookup_append, hepoll]
    simp [alookup]

/-- C5 witness: registering fd 3 on a fresh `IOEventLoop` arms the poller
with the level-triggered read/write mask and records the fd. -/
theorem register_fd_idempotent_level_triggered_witness :
    alookup 3 (register_fd (loopRun []) 3).epoll
        = some (EPOLLIN ||| EPOLLOUT) ∧
    (3 : Int) ∈ (register_fd (loopRun []) 3).registeredFds ∧
    (EPOLLIN ||| EPOLLOUT) &&& EPOLLET = 0 :=
  register_fd_idempotent_level_triggered.2 [] 3 (by decide)

/-- C6: if a callback is already installed for a given (fd, direction)
pair, `register_read_callback` (resp. `register_write_callback`) rejects
the new callback: the state is unchanged and the previously installed
callback is still the one in the map. -/
theorem callback_conflict_rejected :
    ∀ (s : LoopState) (fd : Int) (cb0 cb : Nat),
      (alookup fd s.readCallbacks = some cb0 →
        register_read_callback s fd cb = s ∧
        alookup fd (register_read_callback s fd cb).readCallbacks
            = some cb0) ∧
      (alookup fd s.writeCallbacks = some cb0 →
        register_write_callback s fd cb = s ∧
        alookup fd (register_write_callback s fd cb).writeCallbacks
            = some cb0) := by
  intro s fd cb0 cb
  constructor
  · intro h
    have heq : register_read_callback s fd cb = s := by
      unfold register_read_callback
      rw [if_pos (by rw [h]; rfl)]
    refine ⟨heq, ?_⟩
    rw [heq]
    exact h
  · intro h
    have heq : register_write_callback s fd cb = s := by
      unfold register_write_callback
      rw [if_pos (by rw [h]; rfl)]
    refine ⟨heq, ?_⟩
    rw [heq]
    exact h

/-- C6 witness: fd 3 already has read callback 7 and fd 4 already has write
callback 8 in `sampleLoop`; registering callback 9 on either pair is
rejected and the old callback survives. -/
theorem callback_conflict_rejected_witness :
    (register_read_callback sampleLoop 3 9 = sampleLoop ∧
      alookup 3 (register_read_callback sampleLoop 3 9).readCallbacks
          = some 7) ∧
    (register_write_callback sampleLoop 4 9 = sampleLoop ∧
      alookup 4 (register_write_callback sampleLoop 4 9).writeCallbacks
          = some 8) :=
  ⟨(callback_conflict_rejected sampleLoop 3 7 9).1 (by decide),
   (callback_conflict_rejected sampleLoop 4 8 9).2 (by decide)⟩

/-- C7: in the event-handling body of `IOEventLoop::run`, a delivered event
`(fd, flags)` with the readable flag set and an installed read callback has
that callback removed from `read_callbacks_` and invoked exactly once (and
symmetrically for the writable flag and `write_callbacks_`): afterwards the
map no longer contains an entry for `fd` in that direction, and the
invocation list of the event contains the fired callback exactly once. -/
theorem run_callback_one_shot :
    ∀ (s : LoopState) (fd : Int) (flags : Nat) (cb : Nat),
      (flags &&& EPOLLIN ≠ 0 → alookup fd s.readCallbacks = some cb →
        alookup fd (handleEvent s fd flags).1.readCallbacks = none ∧
        countFired (Fired.readFired fd cb) (handleEvent s fd flags).2 = 1) ∧
      (flags &&& EPOLLOUT ≠ 0 → alookup fd s.writeCallbacks = some cb →
        alookup fd (handleEvent s fd flags).1.writeCallbacks = none ∧
        countFired (Fired.writeFired fd cb) (handleEvent s fd flags).2 = 1) := by
  intro s fd flags cb
  have h1e : (handleEvent s fd flags).1
      = (handleWrite (handleRead s fd flags).1 fd flags).1 := rfl
  have h2e : (handleEvent s fd flags).2
      = (handleRead s fd flags).2
          ++ (handleWrite (handleRead s fd flags).1 fd flags).2 := rfl
  constructor
  · intro hin hcb
    have hr := handleRead_fires s fd flags cb hin hcb
    constructor
    · rw [h1e, (handleWrite_other_fields (handleRead s fd flags).1 fd flags).2.2,
          hr]
      exact alookup_aerase_self fd s.readCallbacks
    · rw [h2e, countFired_append,
          countFired_handleWrite_read (handleRead s fd flags).1 fd fd flags cb,
          hr]
      simp [countFired]
  · intro hout hcb
    have hw1 : alookup fd (handleRead s fd flags).1.writeCallbacks = some cb := by
      rw [(handleRead_other_fields s fd flags).2.2]
      exact hcb
    have hw := handleWrite_fires (handleRead s fd flags).1 fd flags cb hout hw1
    constructor
    · rw [h1e, hw]
      exact alookup_aerase_self fd (handleRead s fd flags).1.writeCallbacks
    · rw [h2e, countFired_append,
          countFired_handleRead_write s fd fd flags cb, hw]
      simp [countFired]

/-- C7 witness: on `sampleLoop`, a readable event on fd 3 fires and removes
read callback 7, and a writable event on fd 4 fires and removes write
callback 8, each exactly once. -/
theorem run_callback_one_shot_witness :
    (alookup 3 (handleEvent sampleLoop 3 EPOLLIN).1.readCallbacks = none ∧
      countFired (Fired.readFired 3 7) (handleEvent sampleLoop 3 EPOLLIN).2
          = 1) ∧
    (alookup 4 (handleEvent sampleLoop 4 EPOLLOUT).1.writeCallbacks = none ∧
      countFired (Fired.writeFired 4 8) (handleEvent sampleLoop 4 EPOLLOUT).2
          = 1) :=
  ⟨(run_callback_one_shot sampleLoop 3 EPOLLIN 7).1 (by decide) (by decide),
   (run_callback_one_shot sampleLoop 4 EPOLLOUT 8).2 (by decide) (by decide)⟩

/-- C8: for a dequeued task whose state is not `kComplete`, the worker
clears both promise slots before `run()` (the task `run()` observes has
null `awaiting_` and `io_awaitable_`), the snapshotted child and
`IOAwaitable` of the prior suspension each appear as a destroy action in
the iteration's operation sequence, and every destroy action is strictly
AFTER the `runResume` action (which sits at index 1, after `clearSlots` at
index 0). -/
theorem worker_destroys_prior_suspension_after_resume :
    ∀ (t : TaskRec), t.st ≠ TaskState.kComplete →
      (workerIterPreRun t).awaiting = none ∧
      (workerIterPreRun t).ioAwaitable = none ∧
      (∀ c, t.awaiting = some c →
          WorkerAct.destroyChild c ∈ workerIterTrace t) ∧
      (∀ a, t.ioAwaitable = some a →
          WorkerAct.destroyIo a ∈ workerIterTrace t) ∧
      (workerIterTrace t)[0]? = some WorkerAct.clearSlots ∧
      (workerIterTrace t)[1]? = some WorkerAct.runResume ∧
      (∀ i x, (workerIterTrace t)[i]? = some x → x.isDestroy = true →
          1 < i) := by
  intro t h
  have htr : workerIterTrace t
      = WorkerAct.clearSlots :: WorkerAct.runResume ::
          ((match t.awaiting with
            | some c => [WorkerAct.destroyChild c]
            | none => [])
           ++ (match t.ioAwaitable with
               | some a => [WorkerAct.destroyIo a]
               | none => [])) := by
    unfold workerIterTrace
    rw [if_pos h]
    simp
  refine ⟨rfl, rfl, ?_, ?_, ?_, ?_, ?_⟩
  · intro c hc
    rw [htr, hc]
    simp
  · intro a ha
    rw [htr, ha]
    simp
  · rw [htr]
    simp
  · rw [htr]
    simp
  · intro i x hx hd
    rw [htr] at hx
    rcases i with _ | i
    · have hcl : x = WorkerAct.clearSlots := by
        simpa using hx.symm
      rw [hcl] at hd
      exact absurd hd (by decide)
    rcases i with _ | i
    · have hrr : x = WorkerAct.runResume := by
        simpa using hx.symm
      rw [hrr] at hd
      exact absurd hd (by decide)
    · omega

/-- C8 witness: the statement evaluated at `sampleTask`, whose prior
suspension recorded child 3 and `IOAwaitable` 4. -/
theorem worker_destroys_prior_suspension_after_resume_witness :
    (workerIterPreRun sampleTask).awaiting = none ∧
    (workerIterPreRun sampleTask).ioAwaitable = none ∧
    (∀ c, sampleTask.awaiting = some c →
        WorkerAct.destroyChild c ∈ workerIterTrace sampleTask) ∧
    (∀ a, sampleTask.ioAwaitable = some a →
        WorkerAct.destroyIo a ∈ workerIterTrace sampleTask) ∧
    (workerIterTrace sampleTask)[0]? = some WorkerAct.clearSlots ∧
    (workerIterTrace sampleTask)[1]? = some WorkerAct.runResume ∧
    (∀ i x, (workerIterTrace sampleTask)[i]? = some x →
        x.isDestroy = true → 1 < i) :=
  worker_destroys_prior_suspension_after_resume sampleTask (by decide)

/-- C9: the `kComplete` dispatch arm pushes the recorded parent callback to
a scheduler queue when one exists; otherwise destroys and frees the task
when it is detached (`delete_on_completion`), leaving the queues untouched;
otherwise re-pushes the task itself so a future parent can still find
it. -/
theorem complete_dispatch_cases :
    ∀ (s : SchedState) (t : TaskRec) (i : Nat),
      i < s.queues.length → t.st = TaskState.kComplete →
      (∀ p, t.callback = some p →
          (completeDispatch s t i).2 = CompleteAction.pushedParent p ∧
          p ∈ allQueued (completeDispatch s t i).1) ∧
      (t.callback = none → t.deleteOnCompletion = true →
          completeDispatch s t i = (s, CompleteAction.destroyedAndFreed)) ∧
      (t.callback = none → t.deleteOnCompletion = false →
          (completeDispatch s t i).2 = CompleteAction.repushedSelf ∧
          t.id ∈ allQueued (completeDispatch s t i).1) := by
  intro s t i hi _hst
  refine ⟨?_, ?_, ?_⟩
  · intro p hp
    have heq : completeDispatch s t i
        = (pushTaskQueues s p i, CompleteAction.pushedParent p) := by
      unfold completeDispatch
      rw [hp]
    rw [heq]
    exact ⟨rfl, mem_allQueued_pushTaskQueues s p i hi⟩
  · intro hc hd
    unfold completeDispatch
    rw [hc, if_pos hd]
  · intro hc hd
    have heq : completeDispatch s t i
        = (pushTaskQueues s t.id i, CompleteAction.repushedSelf) := by
      unfold completeDispatch
      rw [hc, if_neg (by rw [hd]; exact Bool.false_ne_true)]
    rw [heq]
    exact ⟨rfl, mem_allQueued_pushTaskQueues s t.id i hi⟩

/-- C9 witness: dispatching the completed `sampleDoneTask` (parent callback
9 recorded) on worker 0 of `sampleSched` pushes parent 9 to a scheduler
queue. -/
theorem complete_dispatch_cases_witness :
    (completeDispatch sampleSched sampleDoneTask 0).2
        = CompleteAction.pushedParent 9 ∧
    (9 : Nat) ∈ allQueued (completeDispatch sampleSched sampleDoneTask 0).1 :=
  (complete_dispatch_cases sampleSched sampleDoneTask 0 (by decide)
      (by decide)).1 9 (by decide)

/-- C10: the scheduler never resets the enqueued flag: `push_task` and
`spawn_task` set it to true, every operation the scheduler, worker loop or
reactor callback performs on a task preserves a true flag (no path calls
`set_enqueued_false`), and the `kAwaiting` dispatch leaves the queues
untouched for an awaited child whose flag is already true (the child is
never pushed again). -/
theorem enqueued_flag_never_reset :
    (∀ (s : SchedState) (t : TaskRec) (i : Nat),
        (pushTask s t i).2.enqueued = true) ∧
    (∀ (s : SchedState) (t : TaskRec),
        (spawn_task s t).2.enqueued = true) ∧
    (∀ (t : TaskRec) (ops : List SchedOp), t.enqueued = true →
        (applyOps t ops).enqueued = true) ∧
    (∀ (s : SchedState) (parentId : Nat) (child : TaskRec) (i : Nat),
        child.enqueued = true →
        (awaitingDispatch s parentId child i).1 = s ∧
        (awaitingDispatch s parentId child i).2
            = { child with callback := some parentId }) := by
  refine ⟨fun s t i => rfl, fun s t => rfl, ?_, ?_⟩
  · intro t ops
    induction ops generalizing t with
    | nil => exact fun h => h
    | cons op rest ih =>
        intro h
        have hstep : (applyOp t op).enqueued = true := by
          cases op <;> simp [applyOp, h]
        exact ih (applyOp t op) hstep
  · intro s parentId child i h
    have hc1 : ({ child with callback := some parentId } : TaskRec).enqueued
        = true := h
    unfold awaitingDispatch
    rw [if_pos hc1]
    exact ⟨rfl, rfl⟩

/-- C10 witness: `sampleTask` has a true enqueued flag; a worker-loop
operation sequence (clearing slots, completing) leaves it true, and the
`kAwaiting` dispatch with `sampleTask` as the already-enqueued child leaves
the scheduler queues unchanged. -/
theorem enqueued_flag_never_reset_witness :
    (applyOps sampleTask
        [SchedOp.clearAwaiting, SchedOp.clearIoAwaitable,
         SchedOp.setState TaskState.kComplete]).enqueued = true ∧
    (awaitingDispatch sampleSched 9 sampleTask 0).1 = sampleSched :=
  ⟨enqueued_flag_never_reset.2.2.1 sampleTask
      [SchedOp.clearAwaiting, SchedOp.clearIoAwaitable,
       SchedOp.setState TaskState.kComplete] (by decide),
   (enqueued_flag_never_reset.2.2.2 sampleSched 9 sampleTask 0 (by decide)).1⟩

end Vial
